import Mathlib

/-!
Shallow embedding of the gmail-rulemaster rule engine
(src/email_processor.py and src/email_fetcher.py).

Python strings are modelled as Lean `String`; the Python string
operations used by the source (`lower`, substring membership `in`,
`split()`, `startswith`, `int()`) are modelled by the `py*` helpers
below, faithful on ASCII input.  Timestamps are modelled as `Int`
(seconds); the `parsed_date` column, which the source stores as an
ISO-format string or NULL and re-parses with `dateutil`, is modelled by
the instant it denotes (`Option Int`, `none` for NULL).  `now` (the
source calls `datetime.datetime.now`) is passed as an explicit
parameter.  The external Gmail service is an oracle (`Provider`): the
source's `modify_labels` returns a success boolean (which the caller
discards) and `get_or_create_label` returns a label id or `None` on a
provider error.
-/

namespace RuleMaster

/-- Python `str.lower()` (ASCII case folding). -/
def pyLower (s : String) : String := String.mk (s.data.map Char.toLower)

/-- Contiguous-sublist test on character lists: Python `needle in hay`. -/
def listInfixOf (needle : List Char) : List Char → Bool
  | [] => needle.isEmpty
  | c :: t => needle.isPrefixOf (c :: t) || listInfixOf needle t

/-- Python `needle in hay` on strings (substring containment). -/
def pyIn (needle hay : String) : Bool := listInfixOf needle.data hay.data

/-- Python `s.startswith(pre)`. -/
def pyStartsWith (s pre : String) : Bool := pre.data.isPrefixOf s.data

/-- Helper for `pyTokens`: split a character list on whitespace runs,
dropping empty tokens, as Python `str.split()` with no argument does. -/
def splitWsAux : List Char → List Char → List (List Char)
  | [], acc => if acc.isEmpty then [] else [acc.reverse]
  | c :: rest, acc =>
    if c.isWhitespace then
      (if acc.isEmpty then [] else [acc.reverse]) ++ splitWsAux rest []
    else splitWsAux rest (c :: acc)

/-- Python `value.split()`: split on whitespace, no empty tokens. -/
def pyTokens (s : String) : List String := (splitWsAux s.data []).map String.mk

/-- Digit-string value, `none` when the list is empty or holds a
non-digit character. -/
def digitsVal (cs : List Char) : Option Nat :=
  if cs.isEmpty then none
  else if cs.all Char.isDigit then
    some (cs.foldl (fun n c => n * 10 + (c.toNat - 48)) 0)
  else none

/-- Python `int(token)` on a whitespace-free token: optional sign
followed by digits, `none` when the conversion raises `ValueError`.
(Underscore digit grouping is not modelled.) -/
def pyInt (s : String) : Option Int :=
  match s.data with
  | '+' :: rest => (digitsVal rest).map Int.ofNat
  | '-' :: rest => (digitsVal rest).map (fun n => -(n : Int))
  | cs => (digitsVal cs).map Int.ofNat

/-- A JSON-derived Python value as it appears in a rule's `value`
slots.  `PyVal.none` models an absent `value` key (`dict.get` returning
`None`). -/
inductive PyVal where
  | none
  | bool (b : Bool)
  | int (n : Int)
  | str (s : String)
deriving DecidableEq

/-- Python truthiness of a `PyVal`. -/
def pyTruthy : PyVal → Bool
  | .none => false
  | .bool b => b
  | .int n => decide (n ≠ 0)
  | .str s => !s.data.isEmpty

/-- Python `str(v)` as used when a value is interpolated or stored.
For `PyVal.none` (absent key) the processing loop's
`action.get('value', '')` default yields the empty string. -/
def pyStr : PyVal → String
  | .none => ""
  | .bool true => "True"
  | .bool false => "False"
  | .int n => toString n
  | .str s => s

/-- One row of the `emails` table, as the dict handed to rule
evaluation by `fetch_emails_from_db` (sqlite3.Row converted to a dict).
`parsed_date` is the instant the stored ISO string denotes, `none` for
NULL.  The `created_at` audit column is not modelled. -/
structure EmailRow where
  id : String
  thread_id : String
  subject : String
  sender : String
  recipient : String
  received_date : String
  parsed_date : Option Int
  snippet : String
  body : String
  is_read : Bool
  labels : String
deriving DecidableEq

/-- The dict returned by `get_message_detail` (field `from` of the
source dict is spelled `fromAddr`, `to` is `toAddr`; `from` is a Lean
keyword). -/
structure EmailData where
  id : String
  thread_id : String
  snippet : String
  subject : String
  fromAddr : String
  toAddr : String
  date : String
  parsed_date : Option Int
  body : String
  is_read : Bool
  labels : String
deriving DecidableEq

/-- A condition object of a rule (`field`, `predicate`, `value` keys). -/
structure Condition where
  field : String
  predicate : String
  value : String
deriving DecidableEq

/-- An action object of a rule.  `value` is `PyVal.none` when the
`value` key is absent (`action.get('value')`). -/
structure Action where
  type : String
  value : PyVal
deriving DecidableEq

/-- A rule object.  `id?`, `name?` and `predicate?` are `Option`
because the source reads them with `rule.get(..., default)`. -/
structure Rule where
  id? : Option String
  name? : Option String
  predicate? : Option String
  conditions : List Condition
  actions : List Action
deriving DecidableEq

/-- The string-comparison block of `evaluate_condition`
(email_processor.py lines 118-129), applied once `field_value` has been
selected: `contains`, `does not contain`, `equals`, `does not equal`,
all case-folded; any other predicate falls through to `False`. -/
def textCmp (predicate value fieldValue : String) : Bool :=
  if predicate = "contains" then pyIn (pyLower value) (pyLower fieldValue)
  else if predicate = "does not contain" then !pyIn (pyLower value) (pyLower fieldValue)
  else if predicate = "equals" then pyLower value = pyLower fieldValue
  else if predicate = "does not equal" then !(pyLower value = pyLower fieldValue)
  else false

/-- The `received` branch of `evaluate_condition` (email_processor.py
lines 72-113).  A null `parsed_date`, a value that does not split into
exactly two tokens, a non-integer amount, an unrecognized unit, or an
unrecognized predicate all yield `false` (the source returns `False`
or catches the exception).  Days are 86400 seconds; months are
approximated as exactly 30 days (2592000 seconds), as the source
comments document. -/
def receivedCmp (now : Int) (predicate value : String) (parsedDate : Option Int) : Bool :=
  match parsedDate with
  | none => false
  | some emailDate =>
    match pyTokens value with
    | [a, u] =>
      match pyInt a with
      | none => false
      | some amount =>
        let unit := pyLower u
        if predicate = "greater than" then
          if pyStartsWith unit "day" then decide (emailDate < now - amount * 86400)
          else if pyStartsWith unit "month" then decide (emailDate < now - amount * 2592000)
          else false
        else if predicate = "less than" then
          if pyStartsWith unit "day" then decide (now - amount * 86400 < emailDate)
          else if pyStartsWith unit "month" then decide (now - amount * 2592000 < emailDate)
          else false
        else false
    | _ => false

/-- `evaluate_condition(email, condition)` (email_processor.py lines
58-129): lower-case the field and predicate keywords, route the field
to the email attribute (`from` to sender, `to` to recipient, `subject`,
`message` to body, `received` to the date comparison), unknown field
gives `False`. -/
def evaluate_condition (now : Int) (email : EmailRow) (c : Condition) : Bool :=
  let field := pyLower c.field
  let predicate := pyLower c.predicate
  if field = "from" then textCmp predicate c.value email.sender
  else if field = "to" then textCmp predicate c.value email.recipient
  else if field = "subject" then textCmp predicate c.value email.subject
  else if field = "message" then textCmp predicate c.value email.body
  else if field = "received" then receivedCmp now predicate c.value email.parsed_date
  else false

/-- `evaluate_rule(email, rule)` (email_processor.py lines 131-147):
empty condition list never matches; `all` takes the conjunction of the
per-condition results, `any` the disjunction, anything else defaults to
the `all` behavior.  The predicate keyword defaults to `'all'` when the
key is absent and is lower-cased. -/
def evaluate_rule (now : Int) (email : EmailRow) (rule : Rule) : Bool :=
  let predicate := pyLower (rule.predicate?.getD "all")
  let conditions := rule.conditions
  if conditions.isEmpty then false
  else
    let results := conditions.map (evaluate_condition now email)
    if predicate = "all" then results.all id
    else if predicate = "any" then results.any id
    else results.all id


/-- One logical call to the Gmail service made by the action executor:
a label modification on a message (`modify_labels`, carrying the
`addLabelIds` and `removeLabelIds` of the request body), or a
resolve-or-create of a user label by name (`get_or_create_label`). -/
inductive PCall where
  | modify (msgId : String) (addLabelIds removeLabelIds : List String)
  | resolveLabel (labelName : String)
deriving DecidableEq

/-- Oracle for the external Gmail service: whether a given
`modify_labels` request succeeds (the source's `modify_labels` returns
`False` on `HttpError`), and the result of `get_or_create_label`
(`none` models the `HttpError` path that returns `None`). -/
structure Provider where
  modifyOk : String → List String → List String → Bool
  resolveLabel : String → Option String

/-- `modify_labels(service, msg_id, label_modifications)`
(email_fetcher.py lines 350-361): issues the modification and reports
success; on `HttpError` it logs and returns `False`. -/
def modify_labels (p : Provider) (msgId : String) (addLabelIds removeLabelIds : List String) : Bool :=
  p.modifyOk msgId addLabelIds removeLabelIds

/-- `get_or_create_label(service, label_name)` (email_fetcher.py lines
363-390): resolves a label name to an id, creating it when absent;
returns `None` on a provider `HttpError`.  The list/match/create
internals live behind the provider oracle. -/
def get_or_create_label (p : Provider) (labelName : String) : Option String :=
  p.resolveLabel labelName

/-- Whether a provider call succeeded under the oracle. -/
def callOk (p : Provider) : PCall → Bool
  | .modify msgId adds removes => p.modifyOk msgId adds removes
  | .resolveLabel n => (p.resolveLabel n).isSome

/-- `apply_action(service, email, action)` (email_processor.py lines
149-180): returns the descriptor string the source returns together
with the list of provider calls issued.  `mark_as_read` branches on
`value is True` (identity with the boolean `True`, not truthiness);
the return value of `modify_labels` is discarded, exactly as in the
source.  `move_message` resolves non-system destinations through
`get_or_create_label`; a falsy `label_id` falls through to the
`"action not supported"` return. -/
def apply_action (p : Provider) (email : EmailRow) (action : Action) : String × List PCall :=
  let action_type := pyLower action.type
  if action_type = "mark_as_read" then
    if action.value = PyVal.bool true then
      ("marked as read", [PCall.modify email.id [] ["UNREAD"]])
    else
      ("marked as unread", [PCall.modify email.id ["UNREAD"] []])
  else if action_type = "move_message" then
    let value := action.value
    let resolved :=
      if value = PyVal.str "INBOX" ∨ value = PyVal.str "TRASH" ∨ value = PyVal.str "SPAM" then
        (value, ([] : List PCall))
      else
        (match get_or_create_label p (pyStr value) with
         | some s => PyVal.str s
         | none => PyVal.none,
         [PCall.resolveLabel (pyStr value)])
    if pyTruthy resolved.1 then
      ("moved to " ++ pyStr value,
       resolved.2 ++ [PCall.modify email.id [pyStr resolved.1] ["INBOX"]])
    else
      ("action not supported", resolved.2)
  else
    ("action not supported", [])

/-- A row of the `rule_actions` ledger table (`applied_at` and the
autoincrement key are not modelled). -/
structure LedgerEntry where
  email_id : String
  rule_id : String
  action_type : String
  action_value : String
deriving DecidableEq

/-- `record_rule_action(email_id, rule_id, action_type, action_value)`
(email_fetcher.py lines 392-416): append one row to the ledger. -/
def record_rule_action (emailId ruleId actionType actionValue : String) (ledger : List LedgerEntry) : List LedgerEntry :=
  ledger ++ [{ email_id := emailId, rule_id := ruleId, action_type := actionType, action_value := actionValue }]

/-- The per-action body of the processing loop (email_processor.py
lines 213-229): run `apply_action`; when the returned descriptor is
truthy (a non-empty string), increment the applied-actions counter and
record a ledger entry with `action.get('type', '')` and
`str(action.get('value', ''))`.  The state is (counter, ledger). -/
def processAction (p : Provider) (email : EmailRow) (ruleId : String) (acc : Nat × List LedgerEntry) (action : Action) : Nat × List LedgerEntry :=
  let result := (apply_action p email action).1
  if result.data.isEmpty then acc
  else (acc.1 + 1, record_rule_action email.id ruleId action.type (pyStr action.value) acc.2)

/-- The per-rule body of the processing loop (email_processor.py lines
204-229): evaluate the rule and, on a match, apply each of its actions
in order.  The ledger's rule id is `rule.get('id', 'unknown')`. -/
def processRule (p : Provider) (now : Int) (email : EmailRow) (acc : Nat × List LedgerEntry) (rule : Rule) : Nat × List LedgerEntry :=
  if evaluate_rule now email rule then
    rule.actions.foldl (processAction p email (rule.id?.getD "unknown")) acc
  else acc

/-- `process_emails_with_rules(service)` (email_processor.py lines
182-232), parameterized by the rule list the source loads from
`email_rules.json` and the email batch the source reads with
`fetch_emails_from_db(limit=100)`.  Empty rules or an empty email
batch short-circuit to 0 applied actions.  Returns the applied-actions
counter and the ledger rows written during the run. -/
def process_emails_with_rules (p : Provider) (now : Int) (emails : List EmailRow) (rules : List Rule) : Nat × List LedgerEntry :=
  if rules.isEmpty then (0, [])
  else if emails.isEmpty then (0, [])
  else emails.foldl (fun acc email => rules.foldl (processRule p now email) acc) (0, [])

/-- The row written for an `EmailData` dict by `store_email`
(columns in INSERT order; `from` feeds `sender`, `to` feeds
`recipient`, `date` feeds `received_date`). -/
def rowOfData (d : EmailData) : EmailRow :=
  { id := d.id, thread_id := d.thread_id, subject := d.subject,
    sender := d.fromAddr, recipient := d.toAddr,
    received_date := d.date, parsed_date := d.parsed_date,
    snippet := d.snippet, body := d.body, is_read := d.is_read,
    labels := d.labels }

/-- The UPDATE branch of `store_email`: replace every mutable column
of a row, keeping its `id` (the SET list touches every column except
`id` and `created_at`). -/
def updateRow (d : EmailData) (r : EmailRow) : EmailRow :=
  { id := r.id, thread_id := d.thread_id, subject := d.subject,
    sender := d.fromAddr, recipient := d.toAddr,
    received_date := d.date, parsed_date := d.parsed_date,
    snippet := d.snippet, body := d.body, is_read := d.is_read,
    labels := d.labels }

/-- `store_email(email_data)` (email_fetcher.py lines 250-317): if a
row with the same `id` exists, UPDATE it in place (every matching row,
as the SQL `WHERE id = ?` does), else INSERT a new row.  The table is
modelled as the list of rows in insertion order. -/
def store_email (d : EmailData) (db : List EmailRow) : List EmailRow :=
  if db.any (fun r => r.id = d.id) then
    db.map (fun r => if r.id = d.id then updateRow d r else r)
  else db ++ [rowOfData d]

/-- The `ORDER BY parsed_date DESC` comparison: non-null dates sort
descending; NULLs (which SQLite treats as smaller than every value)
come last under DESC. -/
def rowBefore (r x : EmailRow) : Bool :=
  match r.parsed_date, x.parsed_date with
  | some a, some b => decide (b ≤ a)
  | some _, none => true
  | none, _ => false

/-- Insertion step of the `ORDER BY` sort. -/
def insertRowDesc (r : EmailRow) : List EmailRow → List EmailRow
  | [] => [r]
  | x :: xs => if rowBefore r x then r :: x :: xs else x :: insertRowDesc r xs

/-- `fetch_emails_from_db(limit)` (email_fetcher.py lines 319-348):
`SELECT * FROM emails ORDER BY parsed_date DESC LIMIT ?`, modelled as
an insertion sort under `rowBefore` followed by `take limit`. -/
def fetch_emails_from_db (db : List EmailRow) (limit : Nat) : List EmailRow :=
  (db.foldr insertRowDesc []).take limit

/-- `fetch_emails_and_store(service, max_emails)` (email_fetcher.py
lines 418-440): `list_messages` yields `none` on a provider error or a
list of message ids; a falsy result returns 0 immediately.  For each
id, `get_message_detail` either fails (`none`, skipped) or yields a
dict that is stored; each successful store increments the count.
Returns the count together with the resulting table. -/
def fetch_emails_and_store (msgs : Option (List String)) (getDetail : String → Option EmailData) (db : List EmailRow) : Nat × List EmailRow :=
  match msgs with
  | none => (0, db)
  | some ids =>
    if ids.isEmpty then (0, db)
    else ids.foldl
      (fun acc msgId =>
        match getDetail msgId with
        | some detail => (acc.1 + 1, store_email detail acc.2)
        | none => acc)
      (0, db)


/-- Specification predicate (§4.2 of the spec): a `received` value is
malformed when it does not split into exactly two tokens, the amount
token is not an integer, or the unit token is prefixed by neither
"day" nor "month". -/
def recvMalformed (value : String) : Bool :=
  match pyTokens value with
  | [a, u] =>
    match pyInt a with
    | none => true
    | some _ => !pyStartsWith (pyLower u) "day" && !pyStartsWith (pyLower u) "month"
  | _ => true

/-- Specification threshold (§4.2 of the spec): `now` minus
amount·unit, a month being exactly 30 days; `none` when the value is
malformed. -/
def recvThreshold (now : Int) (value : String) : Option Int :=
  match pyTokens value with
  | [a, u] =>
    match pyInt a with
    | none => none
    | some n =>
      if pyStartsWith (pyLower u) "day" then some (now - n * 86400)
      else if pyStartsWith (pyLower u) "month" then some (now - n * 2592000)
      else none
  | _ => none

/-- Specification-level count (§4.7 of the spec): the number of
(email, rule, action) triples whose rule matched the email, i.e. the
number of actions the Processing Pipeline attempts in a run. -/
def matchedActionCount (now : Int) (emails : List EmailRow) (rules : List Rule) : Nat :=
  (emails.map (fun e =>
    (rules.map (fun r => if evaluate_rule now e r then r.actions.length else 0)).sum)).sum

/-- Gmail service oracle whose mutations all succeed. -/
def pAllOk : Provider := ⟨fun _ _ _ => true, fun _ => some "Label_123"⟩

/-- Gmail service oracle whose label modifications all fail
(`modify_labels` returns `False`), label resolution succeeding. -/
def pFailMod : Provider := ⟨fun _ _ _ => false, fun _ => some "Label_123"⟩

/-- Gmail service oracle whose label resolution fails
(`get_or_create_label` returns `None`), modifications succeeding. -/
def pNoLabel : Provider := ⟨fun _ _ _ => true, fun _ => none⟩

/-- A concrete stored email used by witnesses and counterexamples. -/
def wEmail : EmailRow :=
  { id := "m1", thread_id := "t1", subject := "Weekly Newsletter #12",
    sender := "alice@example.com", recipient := "bob@example.com",
    received_date := "raw date", parsed_date := some 5000,
    snippet := "snippet", body := "plain body", is_read := false,
    labels := "INBOX,UNREAD" }

/-- A concrete rule: mark newsletters as read. -/
def markReadRule : Rule :=
  { id? := some "rule1", name? := some "Mark newsletters as read",
    predicate? := some "any",
    conditions := [{ field := "subject", predicate := "contains", value := "newsletter" }],
    actions := [{ type := "mark_as_read", value := PyVal.bool true }] }

/-- A concrete rule: move newsletters to the user label "Work". -/
def moveRule : Rule :=
  { id? := some "rule2", name? := some "Move to Work",
    predicate? := some "any",
    conditions := [{ field := "subject", predicate := "contains", value := "newsletter" }],
    actions := [{ type := "move_message", value := PyVal.str "Work" }] }

/-- A concrete rule with an unrecognized action type. -/
def snoozeRule : Rule :=
  { id? := some "rule3", name? := some "Snooze",
    predicate? := some "any",
    conditions := [{ field := "subject", predicate := "contains", value := "newsletter" }],
    actions := [{ type := "snooze", value := PyVal.none }] }

/-- First fetched version of a message (id `m1`). -/
def wData1 : EmailData :=
  { id := "m1", thread_id := "t1", snippet := "snip1",
    subject := "Subject One", fromAddr := "a@x.com", toAddr := "b@y.com",
    date := "Mon, 1 Jan", parsed_date := some 10, body := "body one",
    is_read := false, labels := "INBOX" }

/-- Re-fetched version of the same message id `m1`, every mutable
field changed. -/
def wData2 : EmailData :=
  { id := "m1", thread_id := "t9", snippet := "snip2",
    subject := "Subject Two", fromAddr := "c@x.com", toAddr := "d@y.com",
    date := "Tue, 2 Jan", parsed_date := some 20, body := "body two",
    is_read := true, labels := "INBOX,UNREAD" }

/-- A second, distinct message (id `m2`). -/
def wData3 : EmailData :=
  { id := "m2", thread_id := "t2", snippet := "snip3",
    subject := "Subject Three", fromAddr := "e@x.com", toAddr := "f@y.com",
    date := "Wed, 3 Jan", parsed_date := some 30, body := "body three",
    is_read := false, labels := "INBOX" }

/-- Detail fetch that succeeds for both listed ids. -/
def wGetDetail : String → Option EmailData :=
  fun i => if i = "m1" then some wData1 else some wData3

/-- Detail fetch that fails for id `m1` and succeeds for id `m2`. -/
def wGetDetailFail : String → Option EmailData :=
  fun i => if i = "m1" then none else some wData3

theorem list_all_map_id {α : Type} (l : List α) (f : α → Bool) :
    (l.map f).all id = l.all f := by
  induction l with
  | nil => rfl
  | cons x xs ih => simp [List.all_cons, ih]

theorem list_any_map_id {α : Type} (l : List α) (f : α → Bool) :
    (l.map f).any id = l.any f := by
  induction l with
  | nil => rfl
  | cons x xs ih => simp [List.any_cons, ih]

/-- Claim C2: for every email and rule, an empty condition list makes
the rule evaluate to `false` regardless of predicate; otherwise
predicate `any` yields the disjunction of the per-condition results
and every other predicate value — `all` included — yields the
conjunction. -/
theorem evaluate_rule_predicate_semantics (now : Int) (e : EmailRow) (r : Rule) :
    evaluate_rule now e r =
      if r.conditions.isEmpty then false
      else if pyLower (r.predicate?.getD "all") = "any" then
        r.conditions.any (evaluate_condition now e)
      else r.conditions.all (evaluate_condition now e) := by
  simp only [evaluate_rule]
  by_cases hc : r.conditions.isEmpty
  · simp [hc]
  · simp only [hc, if_false]
    by_cases hall : pyLower (r.predicate?.getD "all") = "all"
    · have hne : pyLower (r.predicate?.getD "all") ≠ "any" := by
        rw [hall]; decide
      simp [hall, hne, list_all_map_id]
    · by_cases hany : pyLower (r.predicate?.getD "all") = "any"
      · simp [hall, hany, list_any_map_id]
      · simp [hall, hany, list_all_map_id]

/-- Claim C10: keyword matching is case-insensitive — a condition
predicate `CONTAINS` evaluates exactly like `contains`, a rule
predicate `ANY` exactly like `any`, and an action type `MARK_AS_READ`
exactly like `mark_as_read`. -/
theorem keyword_matching_case_insensitive :
    (∀ (now : Int) (e : EmailRow) (f v : String),
        evaluate_condition now e { field := f, predicate := "CONTAINS", value := v } =
          evaluate_condition now e { field := f, predicate := "contains", value := v })
    ∧ (∀ (now : Int) (e : EmailRow) (i n : Option String)
        (cs : List Condition) (acts : List Action),
        evaluate_rule now e ⟨i, n, some "ANY", cs, acts⟩ =
          evaluate_rule now e ⟨i, n, some "any", cs, acts⟩)
    ∧ (∀ (p : Provider) (e : EmailRow) (v : PyVal),
        apply_action p e { type := "MARK_AS_READ", value := v } =
          apply_action p e { type := "mark_as_read", value := v }) := by
  refine ⟨?_, ?_, ?_⟩
  · intro now e f v
    simp only [evaluate_condition]
    rw [show pyLower "CONTAINS" = pyLower "contains" from by decide]
  · intro now e i n cs acts
    simp only [evaluate_rule, Option.getD_some]
    rw [show pyLower "ANY" = pyLower "any" from by decide]
  · intro p e v
    simp only [apply_action]
    rw [show pyLower "MARK_AS_READ" = pyLower "mark_as_read" from by decide]


theorem eval_cond_text_field (now : Int) (e : EmailRow) (f : String)
    (hf : pyLower f = "from" ∨ pyLower f = "to" ∨ pyLower f = "subject" ∨ pyLower f = "message") :
    ∃ fv : String,
      ∀ pred2 v2 : String,
        evaluate_condition now e { field := f, predicate := pred2, value := v2 } =
          textCmp (pyLower pred2) v2 fv := by
  rcases hf with h | h | h | h
  · exact ⟨e.sender, fun pred2 v2 => by simp [evaluate_condition, h]⟩
  · exact ⟨e.recipient, fun pred2 v2 => by simp [evaluate_condition, h]⟩
  · exact ⟨e.subject, fun pred2 v2 => by simp [evaluate_condition, h]⟩
  · exact ⟨e.body, fun pred2 v2 => by simp [evaluate_condition, h]⟩

theorem textCmp_contains (v fv : String) :
    textCmp "contains" v fv = pyIn (pyLower v) (pyLower fv) := by
  simp [textCmp]

theorem textCmp_not_contains (v fv : String) :
    textCmp "does not contain" v fv = !pyIn (pyLower v) (pyLower fv) := by
  rw [textCmp, if_neg (by decide), if_pos rfl]

theorem textCmp_equals (v fv : String) :
    textCmp "equals" v fv = decide (pyLower v = pyLower fv) := by
  rw [textCmp, if_neg (by decide), if_neg (by decide), if_pos rfl]

theorem textCmp_not_equals (v fv : String) :
    textCmp "does not equal" v fv = !decide (pyLower v = pyLower fv) := by
  rw [textCmp, if_neg (by decide), if_neg (by decide), if_neg (by decide), if_pos rfl]

/-- Claim C4: on the text fields (`from`, `to`, `subject`, `message`)
the predicates `contains`/`does not contain` are exact negations of
each other, as are `equals`/`does not equal`, and the comparison is
case-insensitive: replacing the condition value by any value with the
same case-folding leaves each of the four predicates unchanged. -/
theorem text_predicate_negations (now : Int) (e : EmailRow) (f v : String)
    (hf : pyLower f = "from" ∨ pyLower f = "to" ∨ pyLower f = "subject" ∨ pyLower f = "message") :
    (evaluate_condition now e { field := f, predicate := "does not contain", value := v } =
      !evaluate_condition now e { field := f, predicate := "contains", value := v })
    ∧ (evaluate_condition now e { field := f, predicate := "does not equal", value := v } =
      !evaluate_condition now e { field := f, predicate := "equals", value := v })
    ∧ (∀ v2 p : String, pyLower v = pyLower v2 →
        (p = "contains" ∨ p = "does not contain" ∨ p = "equals" ∨ p = "does not equal") →
        evaluate_condition now e { field := f, predicate := p, value := v } =
          evaluate_condition now e { field := f, predicate := p, value := v2 }) := by
  obtain ⟨fv, hfv⟩ := eval_cond_text_field now e f hf
  refine ⟨?_, ?_, ?_⟩
  · rw [hfv, hfv,
      show pyLower "does not contain" = "does not contain" from by decide,
      show pyLower "contains" = "contains" from by decide,
      textCmp_not_contains, textCmp_contains]
  · rw [hfv, hfv,
      show pyLower "does not equal" = "does not equal" from by decide,
      show pyLower "equals" = "equals" from by decide,
      textCmp_not_equals, textCmp_equals]
  · intro v2 p hv hp
    rw [hfv, hfv]
    rcases hp with h | h | h | h <;> subst h
    · rw [show pyLower "contains" = "contains" from by decide,
        textCmp_contains, textCmp_contains, hv]
    · rw [show pyLower "does not contain" = "does not contain" from by decide,
        textCmp_not_contains, textCmp_not_contains, hv]
    · rw [show pyLower "equals" = "equals" from by decide,
        textCmp_equals, textCmp_equals, hv]
    · rw [show pyLower "does not equal" = "does not equal" from by decide,
        textCmp_not_equals, textCmp_not_equals, hv]

/-- Witness for C4 at a concrete email, field and value. -/
theorem text_predicate_negations_witness :
    evaluate_condition 0 wEmail { field := "subject", predicate := "does not contain", value := "newsletter" } =
      !evaluate_condition 0 wEmail { field := "subject", predicate := "contains", value := "newsletter" } :=
  (text_predicate_negations 0 wEmail "subject" "newsletter"
    (Or.inr (Or.inr (Or.inl (by decide))))).1

/-- Claim C5 (amended): `mark_as_read` branches on the value being
exactly the boolean `True` (the source tests `value is True`), not on
truthiness: with `True` it issues exactly one remove-unread
modification and returns "marked as read"; with any other value —
truthy non-boolean values included — it issues exactly one add-unread
modification and returns "marked as unread". -/
theorem mark_as_read_requires_bool_true (p : Provider) (e : EmailRow) (v : PyVal) :
    apply_action p e { type := "mark_as_read", value := v } =
      if v = PyVal.bool true then
        ("marked as read", [PCall.modify e.id [] ["UNREAD"]])
      else
        ("marked as unread", [PCall.modify e.id ["UNREAD"] []]) := by
  simp only [apply_action]
  rw [show pyLower "mark_as_read" = "mark_as_read" from by decide]
  simp

/-- Counterexample to C5 as stated: the integer 1 is truthy, yet the
executor adds the unread marker and answers "marked as unread"
instead of removing it. -/
theorem truthy_value_marked_as_unread :
    pyTruthy (PyVal.int 1) = true ∧
    apply_action pAllOk wEmail { type := "mark_as_read", value := PyVal.int 1 } =
      ("marked as unread", [PCall.modify "m1" ["UNREAD"] []]) := by decide


theorem moved_descriptor_nonempty (s : String) :
    (("moved to " ++ s) : String).data.isEmpty = false := by
  cases s with
  | mk d => simp [String.append]

theorem apply_action_descriptor_nonempty (p : Provider) (e : EmailRow) (a : Action) :
    ((apply_action p e a).1).data.isEmpty = false := by
  simp only [apply_action]
  by_cases h1 : pyLower a.type = "mark_as_read"
  · simp only [if_pos h1]
    by_cases h2 : a.value = PyVal.bool true
    · simp only [if_pos h2]; decide
    · simp only [if_neg h2]; decide
  · simp only [if_neg h1]
    by_cases h3 : pyLower a.type = "move_message"
    · simp only [if_pos h3]
      split <;> split <;>
        first
        | exact moved_descriptor_nonempty (pyStr a.value)
        | decide
    · simp only [if_neg h3]; decide

theorem processAction_step (p : Provider) (e : EmailRow) (rid : String)
    (acc : Nat × List LedgerEntry) (a : Action) :
    processAction p e rid acc a =
      (acc.1 + 1,
       acc.2 ++ [{ email_id := e.id, rule_id := rid,
                   action_type := a.type, action_value := pyStr a.value }]) := by
  simp [processAction, record_rule_action, apply_action_descriptor_nonempty]

/-- The ledger rows the per-action loop writes for the actions of one
matched rule. -/
def entriesFor (e : EmailRow) (rid : String) (acts : List Action) : List LedgerEntry :=
  acts.map (fun a => { email_id := e.id, rule_id := rid,
                       action_type := a.type, action_value := pyStr a.value })

theorem foldl_processAction (p : Provider) (e : EmailRow) (rid : String) :
    ∀ (acts : List Action) (acc : Nat × List LedgerEntry),
      acts.foldl (processAction p e rid) acc =
        (acc.1 + acts.length, acc.2 ++ entriesFor e rid acts) := by
  intro acts
  induction acts with
  | nil => intro acc; simp [entriesFor]
  | cons a t ih =>
    intro acc
    rw [List.foldl_cons, processAction_step, ih]
    refine Prod.ext ?_ ?_
    · simp; omega
    · simp [entriesFor]

theorem processRule_step (p : Provider) (now : Int) (e : EmailRow)
    (acc : Nat × List LedgerEntry) (r : Rule) :
    processRule p now e acc r =
      if evaluate_rule now e r then
        (acc.1 + r.actions.length, acc.2 ++ entriesFor e (r.id?.getD "unknown") r.actions)
      else acc := by
  rw [processRule]
  split <;> simp [foldl_processAction]

theorem foldl_processRule (p : Provider) (now : Int) (e : EmailRow) :
    ∀ (rules : List Rule) (acc : Nat × List LedgerEntry),
      rules.foldl (processRule p now e) acc =
        (acc.1 + (rules.map (fun r => if evaluate_rule now e r then r.actions.length else 0)).sum,
         acc.2 ++ (rules.map (fun r => if evaluate_rule now e r then
           entriesFor e (r.id?.getD "unknown") r.actions else [])).flatten) := by
  intro rules
  induction rules with
  | nil => intro acc; simp
  | cons r t ih =>
    intro acc
    rw [List.foldl_cons, processRule_step]
    by_cases hm : evaluate_rule now e r
    · rw [if_pos hm, ih]
      refine Prod.ext ?_ ?_
      · simp [hm]; omega
      · simp [hm]
    · rw [if_neg hm, ih]
      refine Prod.ext ?_ ?_
      · simp [hm]
      · simp [hm]

theorem foldl_process_emails (p : Provider) (now : Int) (rules : List Rule) :
    ∀ (emails : List EmailRow) (acc : Nat × List LedgerEntry),
      emails.foldl (fun acc2 email => rules.foldl (processRule p now email) acc2) acc =
        (acc.1 + (emails.map (fun e =>
            (rules.map (fun r => if evaluate_rule now e r then r.actions.length else 0)).sum)).sum,
         acc.2 ++ (emails.map (fun e =>
            (rules.map (fun r => if evaluate_rule now e r then
              entriesFor e (r.id?.getD "unknown") r.actions else [])).flatten)).flatten) := by
  intro emails
  induction emails with
  | nil => intro acc; simp
  | cons e t ih =>
    intro acc
    rw [List.foldl_cons, foldl_processRule, ih]
    refine Prod.ext ?_ ?_
    · simp; omega
    · simp

/-- Claim C1 (amended): the processing run appends a ledger entry for
an action exactly when the containing rule matched the email — every
action of every matched rule is recorded and counted, including
unrecognized action types and actions whose provider mutation failed;
both the returned applied-actions count and the ledger length equal
the number of attempted actions across matched (email, rule) pairs. -/
theorem process_counts_every_matched_action (p : Provider) (now : Int)
    (emails : List EmailRow) (rules : List Rule) :
    (process_emails_with_rules p now emails rules).1 = matchedActionCount now emails rules
    ∧ (process_emails_with_rules p now emails rules).2.length =
        matchedActionCount now emails rules := by
  unfold process_emails_with_rules matchedActionCount
  by_cases hr : rules.isEmpty
  · have : rules = [] := List.isEmpty_iff.mp hr
    subst this
    simp
  · rw [if_neg hr]
    by_cases he : emails.isEmpty
    · have : emails = [] := List.isEmpty_iff.mp he
      subst this
      simp
    · rw [if_neg he, foldl_process_emails]
      constructor
      · simp
      · simp only [List.nil_append, Nat.zero_add]
        rw [List.length_flatten, List.map_map]
        congr 1
        apply List.map_congr_left
        intro e _
        simp only [Function.comp_apply]
        rw [List.length_flatten, List.map_map]
        congr 1
        apply List.map_congr_left
        intro r _
        simp only [Function.comp_apply]
        by_cases hm : evaluate_rule now e r <;> simp [hm, entriesFor]


/-- Counterexample to C1 as stated: against a provider whose label
modification fails, the matched `mark_as_read` action still appends a
ledger entry, although the single provider mutation it issued did not
succeed. -/
theorem ledger_despite_failed_mutation :
    process_emails_with_rules pFailMod 0 [wEmail] [markReadRule] =
      (1, [{ email_id := "m1", rule_id := "rule1",
             action_type := "mark_as_read", action_value := "True" }])
    ∧ (apply_action pFailMod wEmail
        { type := "mark_as_read", value := PyVal.bool true }).2 =
        [PCall.modify "m1" [] ["UNREAD"]]
    ∧ callOk pFailMod (PCall.modify "m1" [] ["UNREAD"]) = false := by decide

/-- Claim C6 (amended): when label resolution fails for a non-system
destination, `apply_action` raises no error — it returns the neutral
"action not supported" descriptor after the single resolution call —
and the processing loop nonetheless counts the action and appends a
ledger entry for it. -/
theorem move_resolution_failure_still_recorded (p : Provider) (e : EmailRow) (v : PyVal)
    (h1 : v ≠ PyVal.str "INBOX") (h2 : v ≠ PyVal.str "TRASH") (h3 : v ≠ PyVal.str "SPAM")
    (hres : p.resolveLabel (pyStr v) = none) :
    apply_action p e { type := "move_message", value := v } =
      ("action not supported", [PCall.resolveLabel (pyStr v)])
    ∧ ∀ (rid : String) (acc : Nat × List LedgerEntry),
        processAction p e rid acc { type := "move_message", value := v } =
          (acc.1 + 1,
           acc.2 ++ [{ email_id := e.id, rule_id := rid,
                       action_type := "move_message", action_value := pyStr v }]) := by
  constructor
  · simp only [apply_action]
    rw [show pyLower "move_message" = "move_message" from by decide]
    rw [if_neg (by decide), if_pos rfl]
    have hsys : ¬(v = PyVal.str "INBOX" ∨ v = PyVal.str "TRASH" ∨ v = PyVal.str "SPAM") := by
      intro h; rcases h with h | h | h <;> [exact h1 h; exact h2 h; exact h3 h]
    simp [hsys, get_or_create_label, hres, pyTruthy]
  · intro rid acc
    exact processAction_step p e rid acc { type := "move_message", value := v }

/-- Witness for C6 (amended) at a concrete provider, email and
destination. -/
theorem move_resolution_failure_still_recorded_witness :
    processAction pNoLabel wEmail "rule2" ((0, []) : Nat × List LedgerEntry)
        { type := "move_message", value := PyVal.str "Work" } =
      (1, [{ email_id := "m1", rule_id := "rule2",
             action_type := "move_message", action_value := "Work" }]) := by
  have h := move_resolution_failure_still_recorded pNoLabel wEmail (PyVal.str "Work")
    (by decide) (by decide) (by decide) rfl
  simpa using h.2 "rule2" ((0, []) : Nat × List LedgerEntry)

/-- Counterexample to C6 as stated: with label resolution failing, the
processing run still records a ledger entry for the `move_message`
action (and surfaces no error), contradicting "no ledger entry is
recorded for that action". -/
theorem resolution_failure_still_ledgered :
    pNoLabel.resolveLabel "Work" = none
    ∧ process_emails_with_rules pNoLabel 0 [wEmail] [moveRule] =
      (1, [{ email_id := "m1", rule_id := "rule2",
             action_type := "move_message", action_value := "Work" }]) := by decide

/-- Claim C7 (amended): an unrecognized action type yields the neutral
"action not supported" descriptor with no provider call, but —
because the processing loop treats any non-empty descriptor as
applied — the action is still counted toward the applied-actions
total and still produces a ledger entry. -/
theorem unsupported_action_still_counted (p : Provider) (e : EmailRow) (a : Action)
    (h1 : pyLower a.type ≠ "mark_as_read") (h2 : pyLower a.type ≠ "move_message") :
    apply_action p e a = ("action not supported", [])
    ∧ ∀ (rid : String) (acc : Nat × List LedgerEntry),
        processAction p e rid acc a =
          (acc.1 + 1,
           acc.2 ++ [{ email_id := e.id, rule_id := rid,
                       action_type := a.type, action_value := pyStr a.value }]) := by
  constructor
  · simp only [apply_action]
    rw [if_neg h1, if_neg h2]
  · intro rid acc
    exact processAction_step p e rid acc a

/-- Witness for C7 (amended) at a concrete unrecognized action. -/
theorem unsupported_action_still_counted_witness :
    apply_action pAllOk wEmail { type := "snooze", value := PyVal.none } =
      ("action not supported", []) :=
  (unsupported_action_still_counted pAllOk wEmail
    { type := "snooze", value := PyVal.none } (by decide) (by decide)).1

/-- Counterexample to C7 as stated: a run whose only matched action has
the unrecognized type `snooze` reports an applied-actions total of 1
and writes one ledger entry, contradicting "not counted toward the
applied-actions total ... and produces no ledger entry". -/
theorem unsupported_action_counted_cex :
    process_emails_with_rules pAllOk 0 [wEmail] [snoozeRule] =
      (1, [{ email_id := "m1", rule_id := "rule3",
             action_type := "snooze", action_value := "" }]) := by decide


theorem eval_cond_received (now : Int) (e : EmailRow) (pred v : String) :
    evaluate_condition now e { field := "received", predicate := pred, value := v } =
      receivedCmp now (pyLower pred) v e.parsed_date := by
  simp only [evaluate_condition]
  rw [show pyLower "received" = "received" from by decide]
  rw [if_neg (by decide), if_neg (by decide), if_neg (by decide), if_neg (by decide),
    if_pos rfl]

theorem receivedCmp_spec (now : Int) (pd : Option Int) (value : String) :
    (∀ q : String, recvMalformed value = true ∨ pd = none →
        receivedCmp now q value pd = false)
    ∧ (∀ d t : Int, pd = some d → recvThreshold now value = some t →
        (receivedCmp now "greater than" value pd = true ↔ d < t)
        ∧ (receivedCmp now "less than" value pd = true ↔ t < d)
        ∧ (d = t → receivedCmp now "greater than" value pd = false
            ∧ receivedCmp now "less than" value pd = false))
    ∧ (∀ q : String, q ≠ "greater than" → q ≠ "less than" →
        receivedCmp now q value pd = false) := by
  refine ⟨?_, ?_, ?_⟩
  · intro q h
    rcases h with hm | hn
    · cases hpd : pd with
      | none => rfl
      | some d =>
        simp only [receivedCmp]
        rcases hts : pyTokens value with _ | ⟨a, _ | ⟨u, _ | ⟨x, rest⟩⟩⟩ <;>
          simp only [recvMalformed, hts] at hm ⊢ <;> try rfl
        cases hpi : pyInt a with
        | none => simp [hpi]
        | some n =>
          simp only [hpi] at hm ⊢
          rw [Bool.and_eq_true, Bool.not_eq_true', Bool.not_eq_true'] at hm
          by_cases hq1 : q = "greater than"
          · simp [hq1, hm.1, hm.2]
          · by_cases hq2 : q = "less than" <;> simp [hq1, hq2, hm.1, hm.2]
    · rw [hn]; rfl
  · intro d t hd ht
    subst hd
    have hlg : ("less than" : String) ≠ "greater than" := by decide
    simp only [receivedCmp]
    rcases hts : pyTokens value with _ | ⟨a, _ | ⟨u, _ | ⟨x, rest⟩⟩⟩ <;>
      simp only [recvThreshold, hts] at ht ⊢ <;> try exact absurd ht (by simp)
    cases hpi : pyInt a with
    | none => simp [hpi] at ht
    | some n =>
      simp only [hpi] at ht ⊢
      by_cases hday : pyStartsWith (pyLower u) "day" = true
      · rw [if_pos hday] at ht
        have htv : now - n * 86400 = t := by injection ht
        refine ⟨?_, ?_, ?_⟩
        · simp [hday, hlg, decide_eq_true_eq]
          omega
        · simp [hday, hlg, decide_eq_true_eq]
          omega
        · intro heq
          constructor <;> simp [hday, hlg, decide_eq_false_iff_not] <;> omega
      · by_cases hmon : pyStartsWith (pyLower u) "month" = true
        · rw [if_neg hday, if_pos hmon] at ht
          have htv : now - n * 2592000 = t := by injection ht
          refine ⟨?_, ?_, ?_⟩
          · simp [hday, hmon, hlg, decide_eq_true_eq]
            omega
          · simp [hday, hmon, hlg, decide_eq_true_eq]
            omega
          · intro heq
            constructor <;> simp [hday, hmon, hlg, decide_eq_false_iff_not] <;> omega
        · rw [if_neg hday, if_neg hmon] at ht
          exact absurd ht (by simp)
  · intro q hgt hlt
    cases pd with
    | none => rfl
    | some d =>
      simp only [receivedCmp]
      rcases hts : pyTokens value with _ | ⟨a, _ | ⟨u, _ | ⟨x, rest⟩⟩⟩ <;> try rfl
      cases hpi : pyInt a with
      | none => simp [hpi]
      | some n => simp [hpi, hgt, hlt]


/-- Claim C3: for a condition on the `received` field, a malformed
value (not exactly two tokens, non-integer amount, or unit prefixed by
neither "day" nor "month") or a null `parsedDate` makes evaluation
`false` for every predicate; otherwise "greater than" holds iff
`parsedDate` is strictly before now − amount·unit (a month being
exactly 30 days), "less than" holds iff strictly after, an email dated
exactly at the threshold is `false` for both, and any other predicate
keyword yields `false`. -/
theorem evaluate_received_spec (now : Int) (e : EmailRow) (value : String) :
    (∀ pred : String, recvMalformed value = true ∨ e.parsed_date = none →
        evaluate_condition now e { field := "received", predicate := pred, value := value } = false)
    ∧ (∀ d t : Int, e.parsed_date = some d → recvThreshold now value = some t →
        (evaluate_condition now e
            { field := "received", predicate := "greater than", value := value } = true ↔ d < t)
        ∧ (evaluate_condition now e
            { field := "received", predicate := "less than", value := value } = true ↔ t < d)
        ∧ (d = t →
            evaluate_condition now e
              { field := "received", predicate := "greater than", value := value } = false
            ∧ evaluate_condition now e
              { field := "received", predicate := "less than", value := value } = false))
    ∧ (∀ pred : String, pyLower pred ≠ "greater than" → pyLower pred ≠ "less than" →
        evaluate_condition now e { field := "received", predicate := pred, value := value } = false) := by
  obtain ⟨hbad, hok, hother⟩ := receivedCmp_spec now e.parsed_date value
  refine ⟨?_, ?_, ?_⟩
  · intro pred h
    rw [eval_cond_received]
    exact hbad (pyLower pred) h
  · intro d t hd ht
    obtain ⟨hgt, hlt, hbound⟩ := hok d t hd ht
    refine ⟨?_, ?_, ?_⟩
    · rw [eval_cond_received, show pyLower "greater than" = "greater than" from by decide]
      exact hgt
    · rw [eval_cond_received, show pyLower "less than" = "less than" from by decide]
      exact hlt
    · intro heq
      obtain ⟨h1, h2⟩ := hbound heq
      constructor
      · rw [eval_cond_received, show pyLower "greater than" = "greater than" from by decide]
        exact h1
      · rw [eval_cond_received, show pyLower "less than" = "less than" from by decide]
        exact h2
  · intro pred h1 h2
    rw [eval_cond_received]
    exact hother (pyLower pred) h1 h2

/-- Witness for C3: `wEmail` (dated 5000) is more than 5 days older
than `now = 1000000`, so "greater than 5 days" evaluates true via the
iff, and the malformed value "5days" evaluates false. -/
theorem evaluate_received_spec_witness :
    evaluate_condition 1000000 wEmail
        { field := "received", predicate := "greater than", value := "5 days" } = true
    ∧ evaluate_condition 1000000 wEmail
        { field := "received", predicate := "greater than", value := "5days" } = false := by
  constructor
  · exact ((evaluate_received_spec 1000000 wEmail "5 days").2.1 5000 568000
      rfl (by decide)).1.mpr (by decide)
  · exact (evaluate_received_spec 1000000 wEmail "5days").1 "greater than"
      (Or.inl (by decide))


theorem store_email_preserves_nodup (d : EmailData) (db : List EmailRow)
    (h : (db.map EmailRow.id).Nodup) :
    ((store_email d db).map EmailRow.id).Nodup := by
  unfold store_email
  by_cases hany : (db.any fun r => r.id = d.id) = true
  · rw [if_pos hany, List.map_map]
    have hmap : db.map (EmailRow.id ∘ fun r => if r.id = d.id then updateRow d r else r) =
        db.map EmailRow.id := by
      apply List.map_congr_left
      intro r _
      by_cases hr : r.id = d.id <;> simp [Function.comp_apply, hr, updateRow]
    rw [hmap]
    exact h
  · rw [if_neg hany, List.map_append, List.nodup_append]
    have hno : ∀ r ∈ db, r.id ≠ d.id := by
      intro r hr heq
      exact hany (List.any_eq_true.mpr ⟨r, hr, by simp [heq]⟩)
    refine ⟨h, by simp, ?_⟩
    intro x hx hy
    simp only [List.map_cons, List.map_nil, List.mem_singleton, rowOfData] at hy
    obtain ⟨r, hr, hrx⟩ := List.mem_map.mp hx
    exact hno r hr (by rw [hrx, hy])

theorem store_email_nil (d : EmailData) : store_email d [] = [rowOfData d] := by
  simp [store_email]

/-- Claim C8: upserting a record whose id is already stored replaces
every mutable field of the existing record instead of inserting — any
sequence of upserts on a store with unique ids keeps the ids unique,
and listing after two upserts of the same id returns exactly one
record carrying the later upsert's values. -/
theorem store_email_upsert_spec :
    (∀ (ups : List EmailData) (db : List EmailRow),
        (db.map EmailRow.id).Nodup →
        ((ups.foldl (fun acc d2 => store_email d2 acc) db).map EmailRow.id).Nodup)
    ∧ (∀ (d1 d2 : EmailData) (limit : Nat), d1.id = d2.id → 1 ≤ limit →
        fetch_emails_from_db (store_email d2 (store_email d1 [])) limit = [rowOfData d2]) := by
  constructor
  · intro ups
    induction ups with
    | nil => intro db h; simpa using h
    | cons d t ih =>
      intro db h
      rw [List.foldl_cons]
      exact ih _ (store_email_preserves_nodup d db h)
  · intro d1 d2 limit hid hlim
    have hany : ([rowOfData d1].any fun r => r.id = d2.id) = true := by
      simp [rowOfData, hid]
    have h2 : store_email d2 [rowOfData d1] = [rowOfData d2] := by
      rw [store_email, if_pos hany]
      simp [rowOfData, hid, updateRow]
    rw [store_email_nil, h2]
    cases limit with
    | zero => omega
    | succ n => simp [fetch_emails_from_db, insertRowDesc]

/-- Witness for C8: two upserts under the same id `m1` keep the ids
unique and list back exactly one record with the later values. -/
theorem store_email_upsert_spec_witness :
    (([wData1, wData2].foldl (fun acc d2 => store_email d2 acc)
        ([] : List EmailRow)).map EmailRow.id).Nodup
    ∧ fetch_emails_from_db (store_email wData2 (store_email wData1 [])) 100 =
        [rowOfData wData2] :=
  ⟨store_email_upsert_spec.1 [wData1, wData2] [] (by simp),
   store_email_upsert_spec.2 wData1 wData2 100 rfl (by omega)⟩

/-- Claim C9: the sync pipeline returns the count of successfully
stored records — for a listing of two ids whose detail fetches both
succeed it stores both records and returns 2; when the detail fetch
for the first id fails, that id is skipped without aborting, the other
record is stored unaffected, and the pipeline returns 1. -/
theorem fetch_and_store_spec (a b : String) (da db2 : EmailData)
    (hne : da.id ≠ db2.id) :
    (∀ getDetail : String → Option EmailData,
        getDetail a = some da → getDetail b = some db2 →
        fetch_emails_and_store (some [a, b]) getDetail [] =
          (2, [rowOfData da, rowOfData db2]))
    ∧ (∀ getDetail : String → Option EmailData,
        getDetail a = none → getDetail b = some db2 →
        fetch_emails_and_store (some [a, b]) getDetail [] = (1, [rowOfData db2])) := by
  have hany : ([rowOfData da].any fun r => r.id = db2.id) = false := by
    simp [rowOfData]
    exact hne
  have h2 : store_email db2 [rowOfData da] = [rowOfData da, rowOfData db2] := by
    rw [store_email, if_neg (by simp [hany])]
    rfl
  constructor
  · intro g ha hb
    simp [fetch_emails_and_store, ha, hb, store_email_nil, h2]
  · intro g ha hb
    simp [fetch_emails_and_store, ha, hb, store_email_nil]

/-- Witness for C9 with a concrete two-message provider, one fully
successful and one with a failing detail fetch. -/
theorem fetch_and_store_spec_witness :
    fetch_emails_and_store (some ["m1", "m2"]) wGetDetail [] =
      (2, [rowOfData wData1, rowOfData wData3])
    ∧ fetch_emails_and_store (some ["m1", "m2"]) wGetDetailFail [] =
      (1, [rowOfData wData3]) :=
  ⟨(fetch_and_store_spec "m1" "m2" wData1 wData3 (by decide)).1 wGetDetail
      (by decide) (by decide),
   (fetch_and_store_spec "m1" "m2" wData1 wData3 (by decide)).2 wGetDetailFail
      (by decide) (by decide)⟩

end RuleMaster
